import Mathlib

/-!
Shallow embedding of the temp-mail SMTP ingestion core (src/smtp.rs, src/db.rs).

Modelling conventions:
- Byte streams and Rust String values are Lean String values. The connection
  input is the list of lines returned by successive read_line calls, each line
  keeping its trailing line ending; end of input (peer disconnect) is the end
  of that list.
- Uuid identifiers are drawn from a Nat counter in the database state.
- Timestamps (created_at, expires_at, received_at) carry no information any
  verified property needs and are omitted from the row models.
- Fallible sqlx calls are modelled by a gateway carrying a fault schedule: a
  list of Bool flags consumed one per gateway call, an exhausted schedule
  meaning no fault. A true flag makes that call return a storage error.
- The mail_parser crate is an external black box: the connection handler is
  parameterised by a function from the raw body to an optional parse result.
-/

namespace TempMail

/-- ASCII whitespace, the characters str::trim removes on protocol lines. -/
def isWs (c : Char) : Bool :=
  c == ' ' || c == '\t' || c == '\n' || c == '\r'

/-- Rust str::trim: drop whitespace from both ends. -/
def strTrim (s : String) : String :=
  String.mk (((s.toList.dropWhile isWs).reverse.dropWhile isWs).reverse)

/-- Rust str::to_uppercase on command verbs (ASCII case mapping). -/
def strUpper (s : String) : String :=
  String.mk (s.toList.map Char.toUpper)

/-- Rust str::to_lowercase on extracted addresses (ASCII case mapping). -/
def strLower (s : String) : String :=
  String.mk (s.toList.map Char.toLower)

/-- Rust str::ends_with for string patterns. -/
def endsWithStr (s suffix : String) : Bool :=
  suffix.toList.isSuffixOf s.toList

/-- recipient.split at the at sign, first piece: the local part, the whole
string when no at sign occurs, empty when the string starts with one. -/
def localOf (addr : String) : String :=
  String.mk (addr.toList.takeWhile (fun c => !(c == '@')))

/-- Database-level error outcomes visible to the ingestion core. -/
inductive DbErr where
  | uniqueViolation
  | storage
  | parseFailure
deriving Repr, DecidableEq

/-- Row of the mailboxes table (db.rs, struct Mailbox): id plus the local
part. `local` is a Lean keyword, hence the field name localPart. -/
structure Mailbox where
  id : Nat
  localPart : String
deriving Repr, DecidableEq

/-- Row of the messages table (db.rs, struct Message). -/
structure Message where
  id : Nat
  mailbox_id : Nat
  from_addr : Option String
  to_addr : String
  subject : String
  body_text : String
  body_html : Option String
  raw : String
deriving Repr, DecidableEq

/-- The relational store: both tables plus the id counter. -/
structure DbState where
  mailboxes : List Mailbox
  messages : List Message
  nextId : Nat
deriving Repr, DecidableEq

/-- db.rs Db::get_mailbox_by_local: SELECT ... FROM mailboxes WHERE local = $1
(fetch_optional). -/
def get_mailbox_by_local (db : DbState) (l : String) : Option Mailbox :=
  db.mailboxes.find? (fun mb => mb.localPart == l)

/-- db.rs Db::create_mailbox (ttl_seconds = None, as the SMTP path calls it):
INSERT INTO mailboxes (local) VALUES ($1) RETURNING ... . The schema declares
local UNIQUE, so the insert errors when a row with that local already exists. -/
def insert_mailbox (db : DbState) (l : String) : Except DbErr (Mailbox × DbState) :=
  if db.mailboxes.any (fun mb => mb.localPart == l) then
    .error .uniqueViolation
  else
    let mb : Mailbox := ⟨db.nextId, l⟩
    .ok (mb, { db with mailboxes := db.mailboxes ++ [mb], nextId := db.nextId + 1 })

/-- db.rs Db::create_message: INSERT INTO messages ... RETURNING ... . -/
def insert_message (db : DbState) (mailbox_id : Nat) (from_addr : Option String)
    (to_addr subject body_text : String) (body_html : Option String)
    (raw : String) : Message × DbState :=
  let m : Message := ⟨db.nextId, mailbox_id, from_addr, to_addr, subject, body_text, body_html, raw⟩
  (m, { db with messages := db.messages ++ [m], nextId := db.nextId + 1 })

/-- The persistence gateway as seen from one connection: the shared database
plus a fault schedule injecting sqlx-level failures (pool errors and the
like), consumed one flag per gateway call. -/
structure Gw where
  db : DbState
  faults : List Bool
deriving Repr, DecidableEq

/-- The fault flag the next gateway call consumes; an exhausted schedule
means no fault. -/
def nextFault (g : Gw) : Bool :=
  g.faults.headD false

/-- The gateway after one call consumed its fault flag. -/
def popFault (g : Gw) : Gw :=
  { g with faults := g.faults.tail }

/-- Gateway call wrapping get_mailbox_by_local; the await? in smtp.rs makes
its failure observable to the caller. -/
def gw_get_mailbox_by_local (g : Gw) (l : String) : Except DbErr (Option Mailbox) × Gw :=
  if nextFault g then (.error .storage, popFault g)
  else (.ok (get_mailbox_by_local g.db l), popFault g)

/-- Gateway call wrapping create_mailbox. -/
def gw_create_mailbox (g : Gw) (l : String) : Except DbErr Mailbox × Gw :=
  if nextFault g then (.error .storage, popFault g)
  else
    match insert_mailbox g.db l with
    | .error e => (.error e, popFault g)
    | .ok (mb, db1) => (.ok mb, { popFault g with db := db1 })

/-- Gateway call wrapping create_message. -/
def gw_create_message (g : Gw) (mailbox_id : Nat) (from_addr : Option String)
    (to_addr subject body_text : String) (body_html : Option String)
    (raw : String) : Except DbErr Message × Gw :=
  if nextFault g then (.error .storage, popFault g)
  else
    (.ok (insert_message g.db mailbox_id from_addr to_addr subject body_text body_html raw).1,
     { popFault g with
        db := (insert_message g.db mailbox_id from_addr to_addr subject body_text body_html raw).2 })

/-- Outcome of the black-box mail_parser crate on a raw body: subject,
plain-text body and HTML body, each possibly absent. -/
structure ParsedMessage where
  subject : Option String
  body_text : Option String
  body_html : Option String
deriving Repr, DecidableEq

/-- smtp.rs extract_email: find the first < and the first > of the whole
line, slice strictly between them, lowercase. A Rust slice whose start
exceeds its end panics, which the panicked outcome records; byte indices
and char indices select the same substring because < and > are one byte. -/
inductive ExtractResult where
  | ok (addr : String)
  | malformed
  | panicked
deriving Repr, DecidableEq

def extract_email (command : String) : ExtractResult :=
  let cs := command.toList
  match cs.findIdx? (fun c => c == '<'), cs.findIdx? (fun c => c == '>') with
  | some s, some e =>
      if s + 1 ≤ e then
        .ok (strLower (String.mk ((cs.drop (s + 1)).take (e - (s + 1)))))
      else
        .panicked
  | _, _ => .malformed

/-- Loop body of the recipient loop of process_email (smtp.rs lines 199-219)
for one domain-matching recipient: derive the local part, look the mailbox up,
create it when the lookup saw none, then insert one message row. The first
gateway error stops the body, and the rows inserted before it stay. -/
def deliver_one (g : Gw) (fromAddr recipient subject body_text : String)
    (body_html : Option String) (raw_email : String) : Gw × Option DbErr :=
  match gw_get_mailbox_by_local g (localOf recipient) with
  | (.error e, g1) => (g1, some e)
  | (.ok mbOpt, g1) =>
    match
      (match mbOpt with
       | some mb => (Except.ok mb, g1)
       | none => gw_create_mailbox g1 (localOf recipient)) with
    | (.error e, g2) => (g2, some e)
    | (.ok mailbox, g2) =>
      match gw_create_message g2 mailbox.id (some fromAddr) recipient subject
          body_text body_html raw_email with
      | (.error e, g3) => (g3, some e)
      | (.ok _, g3) => (g3, none)

/-- smtp.rs process_email, recipient loop (lines 194-222): recipients whose
address does not end in @domain are skipped; each matching one runs
deliver_one; the ? operator aborts the whole loop at the first gateway error. -/
def process_recipients (g : Gw) (fromAddr : String) (recipients : List String)
    (subject body_text : String) (body_html : Option String)
    (raw_email domain : String) : Gw × Option DbErr :=
  match recipients with
  | [] => (g, none)
  | recipient :: rest =>
    if endsWithStr recipient ("@" ++ domain) then
      match deliver_one g fromAddr recipient subject body_text body_html raw_email with
      | (g1, some e) => (g1, some e)
      | (g1, none) =>
        process_recipients g1 fromAddr rest subject body_text body_html raw_email domain
    else
      process_recipients g fromAddr rest subject body_text body_html raw_email domain

/-- smtp.rs process_email: parse the raw body (a parse failure aborts before
any gateway call), default the subject and text body, then run the recipient
loop. raw_data is already a String because read_line only yields valid UTF-8
lines, so String::from_utf8_lossy is the identity on it. -/
def process_email (g : Gw) (fromAddr : String) (recipients : List String)
    (raw_data domain : String) (parsed : Option ParsedMessage) : Gw × Option DbErr :=
  let raw_email := raw_data
  match parsed with
  | none => (g, some .parseFailure)
  | some message =>
    let subject := message.subject.getD "(No Subject)"
    let body_text := message.body_text.getD "(No text body)"
    let body_html := message.body_html
    process_recipients g fromAddr recipients subject body_text body_html raw_email domain

/-- Per-connection mutable state of handle_connection: the envelope sender,
the accepted recipient list and the body buffer. -/
structure Session where
  mail_from : String
  rcpt_to : List String
  data_buffer : String
deriving Repr, DecidableEq

/-- The state of the three buffers when handle_connection starts. -/
def Session.initial : Session := ⟨"", [], ""⟩

/-- Concatenation of the collected body lines, i.e. the bytes accumulated in
data_buffer by successive extend_from_slice calls. -/
def joinLines (ls : List String) : String :=
  ls.foldl (fun a b => a ++ b) ""

/-- The inner DATA loop of handle_connection (lines 109-118) on an input that
still holds a terminator line: accumulate each line verbatim until the first
line equal to the lone terminator, return the buffer and the unread suffix.
Returns none when the input runs out first; the real loop never exits in that
case (data_loop_step below makes that precise). -/
def collect_data (input : List String) (buf : String) : Option (String × List String) :=
  match input with
  | [] => none
  | l :: rest =>
    if l == ".\r\n" || l == ".\n" then some (buf, rest)
    else collect_data rest (buf ++ l)

/-- One iteration of the inner DATA loop, state = (remaining input, buffer).
At end of input, read_line returns Ok(0) leaving the cleared line empty; the
empty line is not a terminator, so the loop body runs again with nothing
consumed. Sum.inl is the state of the next iteration, Sum.inr the buffer the
loop breaks with. -/
def data_loop_step : List String × String → (List String × String) ⊕ String
  | ([], buf) => Sum.inl ([], buf)
  | (l :: rest, buf) =>
    if l == ".\r\n" || l == ".\n" then Sum.inr buf
    else Sum.inl (rest, buf ++ l)

/-- Run n iterations of the inner DATA loop. -/
def data_loop_iter : Nat → List String × String → (List String × String) ⊕ String
  | 0, st => Sum.inl st
  | n + 1, st =>
    match data_loop_step st with
    | Sum.inl st1 => data_loop_iter n st1
    | Sum.inr buf => Sum.inr buf

/-- The 220 greeting written on connect. -/
def greeting (domain : String) : String :=
  "220 " ++ domain ++ " ESMTP Temporary Mail Server\r\n"

/-- The four reply lines of the HELO and EHLO arm. -/
def heloReplies (domain : String) : List String :=
  ["250-" ++ domain ++ " Hello\r\n",
   "250-SIZE 10485760\r\n",
   "250-8BITMIME\r\n",
   "250 PIPELINING\r\n"]

/-- The verb dispatched on: line.trim().splitn(2, ' ') first part, uppercased. -/
def parse_cmd (line : String) : String :=
  strUpper (String.mk ((strTrim line).toList.takeWhile (fun c => !(c == ' '))))

/-- How the per-connection loop ends: end of input, QUIT, the inner DATA loop
spinning on end of input, an extract_email panic aborting the task, or the
fuel bound of the Lean model (never reached with fuel above the line count). -/
inductive Exit where
  | eofReached
  | quit
  | diverged
  | panicked
  | outOfFuel
deriving Repr, DecidableEq

/-- Result of one turn of the command loop: either the loop continues with
updated session, gateway, emitted reply lines and unread input, or it stops. -/
inductive StepResult where
  | next (s : Session) (g : Gw) (out : List String) (rest : List String)
  | halt (g : Gw) (out : List String) (e : Exit)
deriving Repr, DecidableEq

/-- The DATA arm of the command loop (smtp.rs lines 96-135): guard on a set
sender and a non-empty recipient list, then collect body lines until the
terminator, run the ingestion pipeline, reply 250 or 451, and clear the
envelope. -/
def data_arm (parser : String → Option ParsedMessage) (domain : String)
    (rest : List String) (s : Session) (g : Gw) : StepResult :=
  if s.mail_from == "" || s.rcpt_to == ([] : List String) then
    .next s g ["503 Bad sequence of commands\r\n"] rest
  else
    match collect_data rest "" with
    | none =>
      .halt g ["354 Start mail input; end with <CRLF>.<CRLF>\r\n"] .diverged
    | some (buf, rest1) =>
      match process_email g s.mail_from s.rcpt_to buf domain (parser buf) with
      | (g1, none) =>
        .next ⟨"", [], buf⟩ g1
          ["354 Start mail input; end with <CRLF>.<CRLF>\r\n",
           "250 OK: Message accepted\r\n"] rest1
      | (g1, some _) =>
        .next ⟨"", [], buf⟩ g1
          ["354 Start mail input; end with <CRLF>.<CRLF>\r\n",
           "451 Temporary failure\r\n"] rest1

/-- One iteration of the command loop of handle_connection (lines 49-155):
dispatch on the verb of one line, with the DATA arm consuming body lines from
the unread input. -/
def conn_step (parser : String → Option ParsedMessage) (domain line : String)
    (rest : List String) (s : Session) (g : Gw) : StepResult :=
  let command := strTrim line
  let cmd := parse_cmd line
  if cmd == "HELO" || cmd == "EHLO" then
    .next s g (heloReplies domain) rest
  else if cmd == "MAIL" then
    match extract_email command with
    | .ok fromAddr => .next { s with mail_from := fromAddr } g ["250 OK\r\n"] rest
    | .malformed => .next s g ["501 Syntax error\r\n"] rest
    | .panicked => .halt g [] .panicked
  else if cmd == "RCPT" then
    match extract_email command with
    | .ok toAddr =>
      if endsWithStr toAddr ("@" ++ domain) then
        .next { s with rcpt_to := s.rcpt_to ++ [toAddr] } g ["250 OK\r\n"] rest
      else
        .next s g ["550 Mailbox unavailable\r\n"] rest
    | .malformed => .next s g ["501 Syntax error\r\n"] rest
    | .panicked => .halt g [] .panicked
  else if cmd == "DATA" then
    data_arm parser domain rest s g
  else if cmd == "RSET" then
    .next ⟨"", [], ""⟩ g ["250 OK\r\n"] rest
  else if cmd == "QUIT" then
    .halt g ["221 Bye\r\n"] .quit
  else if cmd == "NOOP" then
    .next s g ["250 OK\r\n"] rest
  else
    .next s g ["502 Command not implemented\r\n"] rest

/-- Outcome of one whole connection: every reply line written, the final
gateway state, and how the loop ended. -/
structure ConnResult where
  output : List String
  gw : Gw
  exit : Exit
deriving Repr, DecidableEq

/-- The command loop, driven by fuel. Each iteration consumes at least one
input line, so fuel = number of input lines + 1 always suffices. -/
def conn_loop (parser : String → Option ParsedMessage) (domain : String) :
    Nat → List String → Session → Gw → List String → ConnResult
  | 0, _, _, g, out => ⟨out, g, .outOfFuel⟩
  | _ + 1, [], _, g, out => ⟨out, g, .eofReached⟩
  | fuel + 1, line :: rest, s, g, out =>
    match conn_step parser domain line rest s g with
    | .next s1 g1 replies rest1 => conn_loop parser domain fuel rest1 s1 g1 (out ++ replies)
    | .halt g1 replies e => ⟨out ++ replies, g1, e⟩

/-- smtp.rs handle_connection: write the greeting, then run the command loop
over the connection input until end of input or QUIT. -/
def handle_connection (parser : String → Option ParsedMessage) (domain : String)
    (input : List String) (g : Gw) : ConnResult :=
  conn_loop parser domain (input.length + 1) input Session.initial g [greeting domain]

/-- State of one simulated connection racing through the mailbox resolution of
process_email (smtp.rs lines 202-207): it first runs the SELECT of
get_mailbox_by_local, then, only if that observed no row, the INSERT of
create_mailbox. -/
inductive ThreadState where
  | start
  | checked (found : Option Mailbox)
  | finished (result : Except DbErr Mailbox)
deriving Repr

def ThreadState.isFinished : ThreadState → Bool
  | .finished _ => true
  | _ => false

/-- One atomic database call of the check-then-insert sequence a thread runs. -/
def thread_step (db : DbState) (l : String) : ThreadState → ThreadState × DbState
  | .start => (.checked (get_mailbox_by_local db l), db)
  | .checked (some mb) => (.finished (.ok mb), db)
  | .checked none =>
    match insert_mailbox db l with
    | .ok (mb, db1) => (.finished (.ok mb), db1)
    | .error e => (.finished (.error e), db)
  | .finished r => (.finished r, db)

/-- Two connections sharing the database, each resolving the same local. -/
structure RaceState where
  db : DbState
  t1 : ThreadState
  t2 : ThreadState
deriving Repr

/-- One scheduler step: true runs thread 1, false runs thread 2. -/
def race_step (l : String) (st : RaceState) (choice : Bool) : RaceState :=
  if choice then
    let r := thread_step st.db l st.t1
    { st with t1 := r.1, db := r.2 }
  else
    let r := thread_step st.db l st.t2
    { st with t2 := r.1, db := r.2 }

/-- Run an interleaving schedule. -/
def race_run (l : String) (st : RaceState) : List Bool → RaceState
  | [] => st
  | c :: cs => race_run l (race_step l st c) cs

/-- Both threads at their first instruction over an empty store. -/
def raceInit : RaceState := ⟨⟨[], [], 0⟩, .start, .start⟩

/-- Number of mailbox rows carrying a given local. -/
def rowsFor (db : DbState) (l : String) : Nat :=
  (db.mailboxes.filter (fun mb => mb.localPart == l)).length

/-- The empty relational store. -/
def dbEmpty : DbState := ⟨[], [], 0⟩

/-- A gateway over the empty store that never faults. -/
def gwNoFaults : Gw := ⟨dbEmpty, []⟩

/-- A parser outcome used in concrete runs: subject Hi, text body Hello. -/
def parsedHi : ParsedMessage := ⟨some "Hi", some "Hello", none⟩

/-- Thread states that can only be reached once a mailbox row for the raced
local exists in the shared store. -/
def threadImpliesRow : ThreadState → Bool
  | .start => false
  | .checked none => false
  | .checked (some _) => true
  | .finished _ => true

/-- Invariant of the two-thread race: never more than one row for the raced
local, and a thread that observed or produced a row certifies the row count. -/
def raceInv (l : String) (st : RaceState) : Prop :=
  rowsFor st.db l ≤ 1 ∧
  (threadImpliesRow st.t1 = true → rowsFor st.db l = 1) ∧
  (threadImpliesRow st.t2 = true → rowsFor st.db l = 1)

/-- Every stored message carries a present, non-empty envelope sender. -/
def msgsInv (db : DbState) : Prop :=
  ∀ m ∈ db.messages, ∃ a, m.from_addr = some a ∧ a ≠ ""

/-- The gateway a loop turn ends with, whether it continues or stops. -/
def StepResult.gwOf : StepResult → Gw
  | .next _ g _ _ => g
  | .halt g _ _ => g

/- ## Gateway helper lemmas -/

theorem popFault_db (g : Gw) : (popFault g).db = g.db := rfl

theorem gw_get_db (g : Gw) (l : String) :
    (gw_get_mailbox_by_local g l).2.db = g.db := by
  unfold gw_get_mailbox_by_local
  split <;> rfl

theorem insert_mailbox_messages {db : DbState} {l : String} {mb : Mailbox}
    {db1 : DbState} (h : insert_mailbox db l = .ok (mb, db1)) :
    db1.messages = db.messages := by
  unfold insert_mailbox at h
  split at h
  · cases h
  · cases h
    rfl

theorem gw_create_mailbox_messages (g : Gw) (l : String) :
    (gw_create_mailbox g l).2.db.messages = g.db.messages := by
  unfold gw_create_mailbox
  split
  · rfl
  · split
    · rfl
    · next mb db1 h =>
      simpa using insert_mailbox_messages h

theorem get_mailbox_none_any_false {db : DbState} {l : String}
    (h : get_mailbox_by_local db l = none) :
    db.mailboxes.any (fun mb => mb.localPart == l) = false := by
  unfold get_mailbox_by_local at h
  rw [List.find?_eq_none] at h
  rw [List.any_eq_false]
  exact h

theorem deliver_one_messages (g : Gw) (fa rcpt subj bt : String) (bh : Option String)
    (raw : String) :
    ((deliver_one g fa rcpt subj bt bh raw).1.db.messages = g.db.messages ∧
      (deliver_one g fa rcpt subj bt bh raw).2.isSome = true) ∨
    ∃ m0, (deliver_one g fa rcpt subj bt bh raw).1.db.messages = g.db.messages ++ [m0] ∧
      m0.from_addr = some fa ∧ m0.raw = raw ∧ m0.to_addr = rcpt ∧
      (deliver_one g fa rcpt subj bt bh raw).2 = none := by
  unfold deliver_one
  rcases hget : gw_get_mailbox_by_local g (localOf rcpt) with ⟨res, g1⟩
  have hg1 : g1.db = g.db := by
    have h := gw_get_db g (localOf rcpt)
    rw [hget] at h
    exact h
  cases res with
  | error e => left; exact ⟨by rw [hg1], rfl⟩
  | ok mbOpt =>
    dsimp only
    rcases hmb : (match mbOpt with
       | some mb => (Except.ok mb, g1)
       | none => gw_create_mailbox g1 (localOf rcpt)) with ⟨res2, g2⟩
    have hg2 : g2.db.messages = g.db.messages := by
      cases mbOpt with
      | some mb =>
        simp only at hmb
        cases hmb
        rw [hg1]
      | none =>
        have h := gw_create_mailbox_messages g1 (localOf rcpt)
        simp only at hmb
        rw [hmb] at h
        rw [h, hg1]
    rw [hmb]
    cases res2 with
    | error e => left; exact ⟨hg2, rfl⟩
    | ok mailbox =>
      dsimp only
      unfold gw_create_message
      split
      · next e g3 heq =>
        left
        refine ⟨?_, rfl⟩
        split at heq
        · cases heq
          simpa [popFault] using hg2
        · simp at heq
      · next a g3 heq =>
        right
        split at heq
        · simp at heq
        · cases heq
          refine ⟨⟨g2.db.nextId, mailbox.id, some fa, rcpt, subj, bt, bh, raw⟩, ?_, rfl, rfl, rfl, rfl⟩
          simp [popFault, insert_message, hg2]

theorem deliver_one_no_faults (db : DbState) (fa rcpt subj bt : String)
    (bh : Option String) (raw : String) :
    ∃ g1 m0, deliver_one ⟨db, []⟩ fa rcpt subj bt bh raw = (g1, none) ∧
      g1.faults = [] ∧
      g1.db.messages = db.messages ++ [m0] ∧
      m0.from_addr = some fa ∧ m0.to_addr = rcpt ∧ m0.raw = raw ∧
      m0.subject = subj ∧ m0.body_text = bt ∧ m0.body_html = bh := by
  cases hfind : get_mailbox_by_local db (localOf rcpt) with
  | some mb =>
    exact ⟨⟨{ db with
                messages := db.messages ++ [⟨db.nextId, mb.id, some fa, rcpt, subj, bt, bh, raw⟩],
                nextId := db.nextId + 1 }, []⟩,
           ⟨db.nextId, mb.id, some fa, rcpt, subj, bt, bh, raw⟩,
           by simp [deliver_one, gw_get_mailbox_by_local, gw_create_message, nextFault,
                    popFault, insert_message, hfind],
           rfl, rfl, rfl, rfl, rfl, rfl, rfl, rfl⟩
  | none =>
    have ha := get_mailbox_none_any_false hfind
    exact ⟨⟨{ mailboxes := db.mailboxes ++ [⟨db.nextId, localOf rcpt⟩],
              messages := db.messages ++ [⟨db.nextId + 1, db.nextId, some fa, rcpt, subj, bt, bh, raw⟩],
              nextId := db.nextId + 2 }, []⟩,
           ⟨db.nextId + 1, db.nextId, some fa, rcpt, subj, bt, bh, raw⟩,
           by simp [deliver_one, gw_get_mailbox_by_local, gw_create_mailbox, gw_create_message,
                    insert_mailbox, nextFault, popFault, insert_message, hfind, ha],
           rfl, rfl, rfl, rfl, rfl, rfl, rfl, rfl⟩

theorem deliver_one_messages' (g : Gw) (fa rcpt subj bt : String) (bh : Option String)
    (raw : String) (g1 : Gw) (err : Option DbErr)
    (hd : deliver_one g fa rcpt subj bt bh raw = (g1, err)) :
    (g1.db.messages = g.db.messages ∧ err.isSome = true) ∨
    ∃ m0, g1.db.messages = g.db.messages ++ [m0] ∧
      m0.from_addr = some fa ∧ m0.raw = raw ∧ m0.to_addr = rcpt ∧ err = none := by
  have h := deliver_one_messages g fa rcpt subj bt bh raw
  rw [hd] at h
  exact h

theorem process_recipients_messages (fa subj bt : String) (bh : Option String)
    (raw domain : String) :
    ∀ (rs : List String) (g : Gw),
      ∃ new, (process_recipients g fa rs subj bt bh raw domain).1.db.messages
          = g.db.messages ++ new ∧
        ∀ m ∈ new, m.from_addr = some fa ∧ m.raw = raw := by
  intro rs
  induction rs with
  | nil => intro g; exact ⟨[], by simp [process_recipients], by simp⟩
  | cons r rest ih =>
    intro g
    by_cases hm : endsWithStr r ("@" ++ domain) = true
    · rcases hd : deliver_one g fa r subj bt bh raw with ⟨g1, err⟩
      cases err with
      | some e =>
        rcases deliver_one_messages' g fa r subj bt bh raw g1 (some e) hd with
          ⟨hmsg, _⟩ | ⟨m0, _, _, _, _, hnone⟩
        · refine ⟨[], ?_, by simp⟩
          have hres : process_recipients g fa (r :: rest) subj bt bh raw domain = (g1, some e) := by
            simp [process_recipients, hm, hd]
          rw [hres, hmsg]
          simp
        · cases hnone
      | none =>
        rcases deliver_one_messages' g fa r subj bt bh raw g1 none hd with
          ⟨_, hsome⟩ | ⟨m0, hmsg, hfa, hraw, _, _⟩
        · simp at hsome
        · rcases ih g1 with ⟨new, hnew, hfields⟩
          refine ⟨m0 :: new, ?_, ?_⟩
          · have hres : process_recipients g fa (r :: rest) subj bt bh raw domain
                = process_recipients g1 fa rest subj bt bh raw domain := by
              simp [process_recipients, hm, hd]
            rw [hres, hnew, hmsg]
            simp
          · intro m hmem
            rcases List.mem_cons.mp hmem with rfl | hmem
            · exact ⟨hfa, hraw⟩
            · exact hfields m hmem
    · rcases ih g with ⟨new, hnew, hfields⟩
      exact ⟨new, by simpa [process_recipients, hm] using hnew, hfields⟩

theorem process_recipients_append_of_ok (fa subj bt : String) (bh : Option String)
    (raw domain : String) :
    ∀ (rs1 : List String) (g g1 : Gw),
      process_recipients g fa rs1 subj bt bh raw domain = (g1, none) →
      ∀ rest, process_recipients g fa (rs1 ++ rest) subj bt bh raw domain
        = process_recipients g1 fa rest subj bt bh raw domain := by
  intro rs1
  induction rs1 with
  | nil =>
    intro g g1 h rest
    have hg : g = g1 := congrArg Prod.fst h
    subst hg
    rfl
  | cons r' rs1' ih =>
    intro g g1 h rest
    by_cases hm' : endsWithStr r' ("@" ++ domain) = true
    · rcases hd' : deliver_one g fa r' subj bt bh raw with ⟨gx, err⟩
      cases err with
      | some e =>
        rw [show process_recipients g fa (r' :: rs1') subj bt bh raw domain
            = (gx, some e) from by simp [process_recipients, hm', hd']] at h
        simp at h
      | none =>
        rw [show process_recipients g fa (r' :: rs1') subj bt bh raw domain
            = process_recipients gx fa rs1' subj bt bh raw domain from by
          simp [process_recipients, hm', hd']] at h
        rw [show process_recipients g fa ((r' :: rs1') ++ rest) subj bt bh raw domain
            = process_recipients gx fa (rs1' ++ rest) subj bt bh raw domain from by
          simp [process_recipients, hm', hd']]
        exact ih gx g1 h rest
    · rw [show process_recipients g fa (r' :: rs1') subj bt bh raw domain
          = process_recipients g fa rs1' subj bt bh raw domain from by
        simp [process_recipients, hm']] at h
      rw [show process_recipients g fa ((r' :: rs1') ++ rest) subj bt bh raw domain
          = process_recipients g fa (rs1' ++ rest) subj bt bh raw domain from by
        simp [process_recipients, hm']]
      exact ih g g1 h rest

theorem process_recipients_no_faults (fa subj bt : String) (bh : Option String)
    (raw domain : String) :
    ∀ (rs : List String) (db : DbState),
      ∃ db1, process_recipients ⟨db, []⟩ fa rs subj bt bh raw domain = (⟨db1, []⟩, none) ∧
        ∃ new, db1.messages = db.messages ++ new ∧
          new.map Message.to_addr = rs.filter (fun r => endsWithStr r ("@" ++ domain)) ∧
          ∀ m ∈ new, m.from_addr = some fa ∧ m.raw = raw ∧ m.subject = subj ∧
            m.body_text = bt ∧ m.body_html = bh := by
  intro rs
  induction rs with
  | nil =>
    intro db
    exact ⟨db, by simp [process_recipients], [], by simp, by simp, by simp⟩
  | cons r rest ih =>
    intro db
    by_cases hm : endsWithStr r ("@" ++ domain) = true
    · obtain ⟨g1, m0, hd, hf1, hmsg, hfa, hto, hraw, hsubj, hbt, hbh⟩ :=
        deliver_one_no_faults db fa r subj bt bh raw
      rcases g1 with ⟨db1, fl1⟩
      obtain rfl : fl1 = [] := hf1
      obtain ⟨db2, hrec, new, hnew, hmap, hfields⟩ := ih db1
      refine ⟨db2, ?_, m0 :: new, ?_, ?_, ?_⟩
      · simp [process_recipients, hm, hd, hrec]
      · rw [hnew, hmsg]
        simp
      · simp only [List.map_cons, hmap, List.filter_cons, hm, if_true, hto]
      · intro m hmem
        rcases List.mem_cons.mp hmem with rfl | hmem
        · exact ⟨hfa, hraw, hsubj, hbt, hbh⟩
        · exact hfields m hmem
    · obtain ⟨db2, hrec, new, hnew, hmap, hfields⟩ := ih db
      refine ⟨db2, by simp [process_recipients, hm, hrec], new, hnew, ?_, hfields⟩
      simp only [List.filter_cons, hm]
      simpa using hmap

theorem joinLines_aux (ls : List String) :
    ∀ a b : String, ls.foldl (fun x y => x ++ y) (a ++ b) = a ++ ls.foldl (fun x y => x ++ y) b := by
  induction ls with
  | nil => intro a b; rfl
  | cons l ls ih =>
    intro a b
    simp only [List.foldl_cons]
    rw [String.append_assoc]
    exact ih a (b ++ l)

theorem joinLines_cons (l : String) (ls : List String) :
    joinLines (l :: ls) = l ++ joinLines ls := by
  unfold joinLines
  simp only [List.foldl_cons]
  rw [show ("" ++ l : String) = l ++ "" from by simp]
  exact joinLines_aux ls l ""

theorem collect_data_append (bodyLines rest2 : List String) :
    ∀ buf : String, (∀ l ∈ bodyLines, ¬(l = ".\r\n" ∨ l = ".\n")) →
      collect_data (bodyLines ++ ".\r\n" :: rest2) buf
        = some (buf ++ joinLines bodyLines, rest2) := by
  induction bodyLines with
  | nil =>
    intro buf h
    simp [collect_data, joinLines]
  | cons l ls ih =>
    intro buf h
    have hl := h l (by simp)
    push_neg at hl
    have hcond : (l == ".\r\n" || l == ".\n") = false := by
      simp [hl.1, hl.2]
    rw [List.cons_append]
    rw [show collect_data (l :: (ls ++ ".\r\n" :: rest2)) buf
        = collect_data (ls ++ ".\r\n" :: rest2) (buf ++ l) from by simp [collect_data, hcond]]
    rw [ih (buf ++ l) (fun x hx => h x (by simp [hx]))]
    rw [joinLines_cons, String.append_assoc]

/- ## Command-dispatch helper lemmas -/

theorem conn_step_helo (parser : String → Option ParsedMessage) (domain line : String)
    (rest : List String) (s : Session) (g : Gw)
    (hcmd : parse_cmd line = "HELO" ∨ parse_cmd line = "EHLO") :
    conn_step parser domain line rest s g = .next s g (heloReplies domain) rest := by
  rcases hcmd with h | h <;> simp [conn_step, h]

theorem conn_step_rset (parser : String → Option ParsedMessage) (domain line : String)
    (rest : List String) (s : Session) (g : Gw)
    (hcmd : parse_cmd line = "RSET") :
    conn_step parser domain line rest s g = .next ⟨"", [], ""⟩ g ["250 OK\r\n"] rest := by
  simp [conn_step, hcmd]

theorem conn_step_rcpt (parser : String → Option ParsedMessage) (domain line : String)
    (rest : List String) (s : Session) (g : Gw) (toAddr : String)
    (hcmd : parse_cmd line = "RCPT")
    (hex : extract_email (strTrim line) = .ok toAddr) :
    conn_step parser domain line rest s g =
      (if endsWithStr toAddr ("@" ++ domain)
       then .next { s with rcpt_to := s.rcpt_to ++ [toAddr] } g ["250 OK\r\n"] rest
       else .next s g ["550 Mailbox unavailable\r\n"] rest) := by
  simp [conn_step, hcmd, hex]

theorem conn_step_data_badseq (parser : String → Option ParsedMessage) (domain line : String)
    (rest : List String) (s : Session) (g : Gw)
    (hcmd : parse_cmd line = "DATA")
    (hbad : s.mail_from = "" ∨ s.rcpt_to = []) :
    conn_step parser domain line rest s g =
      .next s g ["503 Bad sequence of commands\r\n"] rest := by
  rcases hbad with h | h <;> simp [conn_step, data_arm, hcmd, h]

theorem conn_step_data_go (parser : String → Option ParsedMessage) (domain line : String)
    (rest : List String) (s : Session) (g : Gw)
    (hcmd : parse_cmd line = "DATA")
    (hfrom : s.mail_from ≠ "") (hr : s.rcpt_to ≠ []) :
    conn_step parser domain line rest s g =
      (match collect_data rest "" with
       | none =>
         .halt g ["354 Start mail input; end with <CRLF>.<CRLF>\r\n"] .diverged
       | some (buf, rest1) =>
         match process_email g s.mail_from s.rcpt_to buf domain (parser buf) with
         | (g1, none) =>
           .next ⟨"", [], buf⟩ g1
             ["354 Start mail input; end with <CRLF>.<CRLF>\r\n",
              "250 OK: Message accepted\r\n"] rest1
         | (g1, some _) =>
           .next ⟨"", [], buf⟩ g1
             ["354 Start mail input; end with <CRLF>.<CRLF>\r\n",
              "451 Temporary failure\r\n"] rest1) := by
  simp [conn_step, data_arm, hcmd, hfrom, hr]

/- ## Race-model helper lemmas -/

theorem rowsFor_pos_of_find {db : DbState} {l : String} {mb : Mailbox}
    (h : get_mailbox_by_local db l = some mb) : 1 ≤ rowsFor db l := by
  unfold get_mailbox_by_local at h
  have hmem := List.mem_of_find?_eq_some h
  have hp := List.find?_some h
  unfold rowsFor
  exact List.length_pos_of_mem (List.mem_filter.mpr ⟨hmem, hp⟩)

theorem rowsFor_pos_of_any {db : DbState} {l : String}
    (h : db.mailboxes.any (fun mb => mb.localPart == l) = true) : 1 ≤ rowsFor db l := by
  rcases List.any_eq_true.mp h with ⟨mb, hmem, hp⟩
  unfold rowsFor
  exact List.length_pos_of_mem (List.mem_filter.mpr ⟨hmem, hp⟩)

theorem rowsFor_zero_of_any_false {db : DbState} {l : String}
    (h : db.mailboxes.any (fun mb => mb.localPart == l) = false) : rowsFor db l = 0 := by
  unfold rowsFor
  rw [List.filter_eq_nil_iff.mpr (List.any_eq_false.mp h)]
  rfl

theorem insert_error_any {db : DbState} {l : String} {e : DbErr}
    (h : insert_mailbox db l = .error e) :
    db.mailboxes.any (fun mb => mb.localPart == l) = true := by
  unfold insert_mailbox at h
  split at h
  · assumption
  · cases h

theorem insert_ok_shape {db : DbState} {l : String} {mb : Mailbox} {db1 : DbState}
    (h : insert_mailbox db l = .ok (mb, db1)) :
    db.mailboxes.any (fun x => x.localPart == l) = false ∧
    db1.mailboxes = db.mailboxes ++ [⟨db.nextId, l⟩] := by
  unfold insert_mailbox at h
  split at h
  · cases h
  · next hcond =>
    cases h
    exact ⟨by simpa using hcond, rfl⟩

theorem threadImpliesRow_of_finished {t : ThreadState} (h : t.isFinished = true) :
    threadImpliesRow t = true := by
  cases t <;> simp_all [ThreadState.isFinished, threadImpliesRow]

theorem race_thread_step (l : String) (db : DbState) (t : ThreadState)
    (hle : rowsFor db l ≤ 1)
    (ht : threadImpliesRow t = true → rowsFor db l = 1) :
    rowsFor (thread_step db l t).2 l ≤ 1 ∧
    (threadImpliesRow (thread_step db l t).1 = true → rowsFor (thread_step db l t).2 l = 1) ∧
    rowsFor db l ≤ rowsFor (thread_step db l t).2 l := by
  cases t with
  | start =>
    dsimp [thread_step]
    refine ⟨hle, ?_, Nat.le_refl _⟩
    cases hfind : get_mailbox_by_local db l with
    | none => intro hc; simp [threadImpliesRow] at hc
    | some mb =>
      intro _
      have h1 := rowsFor_pos_of_find hfind
      omega
  | checked found =>
    cases found with
    | some mb =>
      dsimp [thread_step]
      exact ⟨hle, fun _ => ht (by simp [threadImpliesRow]), Nat.le_refl _⟩
    | none =>
      dsimp [thread_step]
      cases hins : insert_mailbox db l with
      | error e =>
        dsimp
        have h1 := rowsFor_pos_of_any (insert_error_any hins)
        exact ⟨hle, fun _ => by omega, Nat.le_refl _⟩
      | ok p =>
        rcases p with ⟨mb, db1⟩
        dsimp
        obtain ⟨hany, hmbs⟩ := insert_ok_shape hins
        have h0 := rowsFor_zero_of_any_false hany
        have h1 : rowsFor db1 l = 1 := by
          unfold rowsFor at h0 ⊢
          rw [hmbs, List.filter_append]
          simp [h0, List.filter_eq_nil_iff.mp (by
            rw [List.length_eq_zero] at h0
            exact h0)]
        exact ⟨by omega, fun _ => h1, by omega⟩
  | finished r =>
    dsimp [thread_step]
    exact ⟨hle, fun _ => ht (by simp [threadImpliesRow]), Nat.le_refl _⟩

theorem raceInv_step (l : String) (st : RaceState) (c : Bool)
    (h : raceInv l st) : raceInv l (race_step l st c) := by
  rcases h with ⟨hle, h1, h2⟩
  cases c
  · obtain ⟨hle', himp, hmono⟩ := race_thread_step l st.db st.t2 hle h2
    refine ⟨hle', ?_, himp⟩
    intro hc
    have hx := h1 hc
    show rowsFor (thread_step st.db l st.t2).2 l = 1
    omega
  · obtain ⟨hle', himp, hmono⟩ := race_thread_step l st.db st.t1 hle h1
    refine ⟨hle', himp, ?_⟩
    intro hc
    have hx := h2 hc
    show rowsFor (thread_step st.db l st.t1).2 l = 1
    omega

theorem raceInv_run (l : String) (sched : List Bool) :
    ∀ st : RaceState, raceInv l st → raceInv l (race_run l st sched) := by
  induction sched with
  | nil => exact fun st h => h
  | cons c cs ih => exact fun st h => ih (race_step l st c) (raceInv_step l st c h)

/- ## Claims -/

/-- Claim C1, counterexample: the mailbox resolution of process_email is a
separate existence check followed by a separate insert, so under the
interleaving in which both connections run their SELECT before either INSERT,
the second INSERT hits the unique constraint and that caller gets an error
instead of the mailbox — resolveOrCreate is not atomic for concurrent
first deliveries to a not-yet-existing local. -/
theorem c1_counterexample :
    (race_run "bob" raceInit [true, false, true, false]).t2
        = ThreadState.finished (Except.error DbErr.uniqueViolation) ∧
    (race_run "bob" raceInit [true, false, true, false]).t1
        = ThreadState.finished (Except.ok ⟨0, "bob"⟩) := ⟨rfl, rfl⟩

/-- Claim C1, amended: mailbox-row uniqueness itself survives — under every
interleaving of two concurrent first-callers for the same not-yet-existing
local, once either caller has finished there is exactly one Mailbox row for
that local; but the implementation reaches this through the database unique
constraint, the racing loser failing, not through an atomic upsert. -/
theorem c1_unique_row_for_local (l : String) (sched : List Bool)
    (h : (race_run l raceInit sched).t1.isFinished = true ∨
         (race_run l raceInit sched).t2.isFinished = true) :
    rowsFor (race_run l raceInit sched).db l = 1 := by
  have hinv := raceInv_run l sched raceInit
    ⟨by simp [raceInit, rowsFor], by simp [raceInit, threadImpliesRow],
     by simp [raceInit, threadImpliesRow]⟩
  rcases hinv with ⟨hle, h1, h2⟩
  rcases h with hf | hf
  · exact h1 (threadImpliesRow_of_finished hf)
  · exact h2 (threadImpliesRow_of_finished hf)

/-- Witness for the amended C1 theorem at a concrete schedule. -/
theorem c1_unique_row_for_local_witness :
    rowsFor (race_run "bob" raceInit [true, false, true, false]).db "bob" = 1 :=
  c1_unique_row_for_local "bob" [true, false, true, false] (Or.inl rfl)

/-- Claim C2, counterexample: with no storage failure both recipients of the
transaction are persisted, but when the message insert for the first
recipient fails, the recipient loop is aborted by the error and the second
recipient — whose own persistence would have succeeded — gets no Message row. -/
theorem c2_counterexample :
    ((process_email ⟨dbEmpty, []⟩ "a@x" ["r1@d", "r2@d"] "m" "d"
        (some parsedHi)).1.db.messages.map Message.to_addr = ["r1@d", "r2@d"]) ∧
    (process_email ⟨dbEmpty, [false, false, true]⟩ "a@x" ["r1@d", "r2@d"] "m" "d"
        (some parsedHi)).1.db.messages = [] := ⟨rfl, rfl⟩

/-- Claim C2, amended: a storage-gateway failure while persisting the message
for one recipient — the failure may hit any of the gateway calls of that
recipient's delivery, the mailbox lookup, the mailbox insert or the message
insert — aborts the recipient loop. Whatever the store and fault schedule,
whatever recipients were processed before and whatever recipients remain
after, the loop returns that error, the remaining recipients are never
processed, the message table stays exactly as it was after the successful
prefix — rows persisted before the failure are kept — and the failing
recipient adds no row; the prefix itself only appended rows. -/
theorem c2_loop_aborts_on_failure
    (g g1 g2 : Gw) (fa subj bt : String) (bh : Option String) (raw domain : String)
    (rs1 rs2 : List String) (r : String) (e : DbErr)
    (h1 : process_recipients g fa rs1 subj bt bh raw domain = (g1, none))
    (hm : endsWithStr r ("@" ++ domain) = true)
    (hd : deliver_one g1 fa r subj bt bh raw = (g2, some e)) :
    process_recipients g fa (rs1 ++ r :: rs2) subj bt bh raw domain = (g2, some e) ∧
    g2.db.messages = g1.db.messages ∧
    ∃ new, g1.db.messages = g.db.messages ++ new ∧
      ∀ m ∈ new, m.from_addr = some fa ∧ m.raw = raw := by
  refine ⟨?_, ?_, ?_⟩
  · rw [process_recipients_append_of_ok fa subj bt bh raw domain rs1 g g1 h1 (r :: rs2)]
    simp [process_recipients, hm, hd]
  · rcases deliver_one_messages' g1 fa r subj bt bh raw g2 (some e) hd with
      ⟨hmsg, _⟩ | ⟨m0, _, _, _, _, hnone⟩
    · exact hmsg
    · cases hnone
  · obtain ⟨new, hnew, hf⟩ := process_recipients_messages fa subj bt bh raw domain rs1 g
    rw [h1] at hnew
    exact ⟨new, hnew, hf⟩

/-- Witness for the amended C2: the first recipient is fully persisted, the
second recipient's mailbox lookup hits a storage fault, and the third
recipient is never processed — the first recipient's row survives. -/
theorem c2_loop_aborts_on_failure_witness :
    process_recipients ⟨dbEmpty, [false, false, false, true]⟩ "a@x"
        (["r1@d"] ++ "r2@d" :: ["r3@d"]) "Hi" "Hello" none "m" "d"
      = (⟨⟨[⟨0, "r1"⟩], [⟨1, 0, some "a@x", "r1@d", "Hi", "Hello", none, "m"⟩], 2⟩, []⟩,
         some DbErr.storage) ∧
    (⟨⟨[⟨0, "r1"⟩], [⟨1, 0, some "a@x", "r1@d", "Hi", "Hello", none, "m"⟩], 2⟩,
        ([] : List Bool)⟩ : Gw).db.messages
      = (⟨⟨[⟨0, "r1"⟩], [⟨1, 0, some "a@x", "r1@d", "Hi", "Hello", none, "m"⟩], 2⟩,
          [true]⟩ : Gw).db.messages ∧
    ∃ new, (⟨⟨[⟨0, "r1"⟩], [⟨1, 0, some "a@x", "r1@d", "Hi", "Hello", none, "m"⟩], 2⟩,
        ([true] : List Bool)⟩ : Gw).db.messages
      = (⟨dbEmpty, [false, false, false, true]⟩ : Gw).db.messages ++ new ∧
      ∀ m ∈ new, m.from_addr = some "a@x" ∧ m.raw = "m" :=
  c2_loop_aborts_on_failure ⟨dbEmpty, [false, false, false, true]⟩
    ⟨⟨[⟨0, "r1"⟩], [⟨1, 0, some "a@x", "r1@d", "Hi", "Hello", none, "m"⟩], 2⟩, [true]⟩
    ⟨⟨[⟨0, "r1"⟩], [⟨1, 0, some "a@x", "r1@d", "Hi", "Hello", none, "m"⟩], 2⟩, []⟩
    "a@x" "Hi" "Hello" none "m" "d" ["r1@d"] ["r3@d"] "r2@d" DbErr.storage
    rfl rfl rfl

/-- Claim C4, code-bug evidence: after the peer disconnects while the handler
is collecting body lines, the inner DATA loop never terminates — read_line
keeps returning zero bytes, the cleared line stays empty and never equals the
terminator, so every number of iterations leaves the loop in the same state.
A concrete session that reaches DATA and then ends its input drives
handle_connection into exactly that diverging loop. -/
theorem c4_disconnect_in_data_diverges :
    (∀ (n : Nat) (buf : String), data_loop_iter n ([], buf) = Sum.inl ([], buf)) ∧
    (handle_connection (fun _ => none) "tempmail.local"
        ["EHLO c\r\n", "MAIL FROM:<a@x>\r\n", "RCPT TO:<b@tempmail.local>\r\n", "DATA\r\n"]
        gwNoFaults).exit = Exit.diverged := by
  constructor
  · intro n buf
    induction n with
    | zero => rfl
    | succ n ih => simpa [data_loop_iter, data_loop_step] using ih
  · rfl

/-- Claim C5, counterexample: on a line whose first closing bracket precedes
its first opening bracket, extract_email neither returns an address nor the
malformed outcome — the Rust slice command[start+1..end] has start above end
and panics. -/
theorem c5_counterexample :
    extract_email "MAIL FROM:>a<" = ExtractResult.panicked := rfl

/-- Claim C3: after a DATA command in a session with a set sender and at
least one accepted recipient, over a fault-free gateway, a body section
terminated by a lone terminator line yields the success replies and exactly
one new Message row per recipient of the list whose domain suffix matches the
service domain, each new row's raw field being exactly the concatenation of
the body lines with their line endings, terminator excluded. -/
theorem c3_exact_delivery (parser : String → Option ParsedMessage) (domain line : String)
    (bodyLines rest2 : List String) (s : Session) (db : DbState) (p : ParsedMessage)
    (hcmd : parse_cmd line = "DATA")
    (hfrom : s.mail_from ≠ "") (hr : s.rcpt_to ≠ [])
    (hbody : ∀ l ∈ bodyLines, ¬(l = ".\r\n" ∨ l = ".\n"))
    (hparse : parser (joinLines bodyLines) = some p) :
    ∃ db1 new,
      conn_step parser domain line (bodyLines ++ ".\r\n" :: rest2) s ⟨db, []⟩ =
        .next ⟨"", [], joinLines bodyLines⟩ ⟨db1, []⟩
          ["354 Start mail input; end with <CRLF>.<CRLF>\r\n",
           "250 OK: Message accepted\r\n"] rest2 ∧
      db1.messages = db.messages ++ new ∧
      new.map Message.to_addr = s.rcpt_to.filter (fun r => endsWithStr r ("@" ++ domain)) ∧
      ∀ m ∈ new, m.raw = joinLines bodyLines := by
  obtain ⟨db1, hrec, new, hnew, hmap, hfields⟩ :=
    process_recipients_no_faults s.mail_from (p.subject.getD "(No Subject)")
      (p.body_text.getD "(No text body)") p.body_html (joinLines bodyLines) domain
      s.rcpt_to db
  refine ⟨db1, new, ?_, hnew, hmap, fun m hm => (hfields m hm).2.1⟩
  rw [conn_step_data_go parser domain line _ s ⟨db, []⟩ hcmd hfrom hr,
      collect_data_append bodyLines rest2 "" hbody]
  simp [process_email, hparse, hrec]

/-- Witness for C3 at a concrete transaction. -/
theorem c3_exact_delivery_witness :
    ∃ db1 new,
      conn_step (fun _ => some parsedHi) "service.test" "DATA\r\n"
          (["Subject: Hi\r\n", "\r\n", "Hello\r\n"] ++ ".\r\n" :: [])
          ⟨"a@x", ["bob@service.test"], ""⟩ ⟨dbEmpty, []⟩ =
        .next ⟨"", [], joinLines ["Subject: Hi\r\n", "\r\n", "Hello\r\n"]⟩ ⟨db1, []⟩
          ["354 Start mail input; end with <CRLF>.<CRLF>\r\n",
           "250 OK: Message accepted\r\n"] [] ∧
      db1.messages = dbEmpty.messages ++ new ∧
      new.map Message.to_addr
        = (["bob@service.test"] : List String).filter
            (fun r => endsWithStr r ("@" ++ "service.test")) ∧
      ∀ m ∈ new, m.raw = joinLines ["Subject: Hi\r\n", "\r\n", "Hello\r\n"] :=
  c3_exact_delivery (fun _ => some parsedHi) "service.test" "DATA\r\n"
    ["Subject: Hi\r\n", "\r\n", "Hello\r\n"] [] ⟨"a@x", ["bob@service.test"], ""⟩
    dbEmpty parsedHi rfl (by decide) (by decide) (by decide) rfl

/-- Claim C6: when an address is extracted from a RCPT command, the recipient
is accepted — reply 250 and address appended to the recipient list — exactly
when the address ends in the at sign followed by the service domain;
otherwise the reply is 550 mailbox unavailable, the session is unchanged and
the gateway is untouched, so no mailbox is created for the rejected address. -/
theorem c6_rcpt_domain_gate (parser : String → Option ParsedMessage) (domain line : String)
    (rest : List String) (s : Session) (g : Gw) (toAddr : String)
    (hcmd : parse_cmd line = "RCPT")
    (hex : extract_email (strTrim line) = .ok toAddr) :
    conn_step parser domain line rest s g =
      (if endsWithStr toAddr ("@" ++ domain)
       then .next { s with rcpt_to := s.rcpt_to ++ [toAddr] } g ["250 OK\r\n"] rest
       else .next s g ["550 Mailbox unavailable\r\n"] rest) :=
  conn_step_rcpt parser domain line rest s g toAddr hcmd hex

/-- Witness for C6: a recipient on a foreign domain is rejected with 550 and
the gateway is left untouched. -/
theorem c6_rcpt_domain_gate_witness :
    conn_step (fun _ => none) "service.test" "RCPT TO:<x@other.test>\r\n" []
        ⟨"a@x", [], ""⟩ gwNoFaults
      = .next ⟨"a@x", [], ""⟩ gwNoFaults ["550 Mailbox unavailable\r\n"] [] := by
  rw [c6_rcpt_domain_gate (fun _ => none) "service.test" "RCPT TO:<x@other.test>\r\n" []
    ⟨"a@x", [], ""⟩ gwNoFaults "x@other.test" rfl rfl]
  decide

/-- Claim C7: when the delegated parser fails on the collected body, the
transaction is answered with 451 and the gateway comes out exactly as it went
in — no Mailbox row and no Message row is created for any recipient. -/
theorem c7_parse_failure_no_persistence (parser : String → Option ParsedMessage)
    (domain line : String) (bodyLines rest2 : List String) (s : Session) (g : Gw)
    (hcmd : parse_cmd line = "DATA")
    (hfrom : s.mail_from ≠ "") (hr : s.rcpt_to ≠ [])
    (hbody : ∀ l ∈ bodyLines, ¬(l = ".\r\n" ∨ l = ".\n"))
    (hparse : parser (joinLines bodyLines) = none) :
    conn_step parser domain line (bodyLines ++ ".\r\n" :: rest2) s g =
      .next ⟨"", [], joinLines bodyLines⟩ g
        ["354 Start mail input; end with <CRLF>.<CRLF>\r\n",
         "451 Temporary failure\r\n"] rest2 := by
  rw [conn_step_data_go parser domain line _ s g hcmd hfrom hr,
      collect_data_append bodyLines rest2 "" hbody]
  simp [process_email, hparse]

/-- Witness for C7 at a concrete transaction whose body does not parse. -/
theorem c7_parse_failure_no_persistence_witness :
    conn_step (fun _ => none) "service.test" "DATA\r\n"
        (["junk\r\n"] ++ ".\r\n" :: []) ⟨"a@x", ["b@service.test"], ""⟩ gwNoFaults =
      .next ⟨"", [], joinLines ["junk\r\n"]⟩ gwNoFaults
        ["354 Start mail input; end with <CRLF>.<CRLF>\r\n",
         "451 Temporary failure\r\n"] [] :=
  c7_parse_failure_no_persistence (fun _ => none) "service.test" "DATA\r\n"
    ["junk\r\n"] [] ⟨"a@x", ["b@service.test"], ""⟩ gwNoFaults
    rfl (by decide) (by decide) (by decide) rfl

/-- Claim C8: RSET, in any session state, clears the sender, the recipient
list and the body buffer and replies 250; a DATA command issued right after,
without a new MAIL and RCPT, is refused with 503 bad sequence, the session
and the gateway left unchanged — no Message is created. -/
theorem c8_rset_clears_envelope (parser : String → Option ParsedMessage)
    (domain line1 line2 : String) (rest1 rest2 : List String) (s : Session) (g : Gw)
    (h1 : parse_cmd line1 = "RSET") (h2 : parse_cmd line2 = "DATA") :
    conn_step parser domain line1 rest1 s g = .next ⟨"", [], ""⟩ g ["250 OK\r\n"] rest1 ∧
    conn_step parser domain line2 rest2 ⟨"", [], ""⟩ g =
      .next ⟨"", [], ""⟩ g ["503 Bad sequence of commands\r\n"] rest2 :=
  ⟨conn_step_rset parser domain line1 rest1 s g h1,
   conn_step_data_badseq parser domain line2 rest2 ⟨"", [], ""⟩ g h2 (Or.inl rfl)⟩

/-- Witness for C8 from a session with a full envelope and body buffer. -/
theorem c8_rset_clears_envelope_witness :
    conn_step (fun _ => none) "service.test" "RSET\r\n" []
        ⟨"a@x", ["b@service.test"], "buffered"⟩ gwNoFaults
      = .next ⟨"", [], ""⟩ gwNoFaults ["250 OK\r\n"] [] ∧
    conn_step (fun _ => none) "service.test" "DATA\r\n" [".\r\n"]
        ⟨"", [], ""⟩ gwNoFaults
      = .next ⟨"", [], ""⟩ gwNoFaults ["503 Bad sequence of commands\r\n"] [".\r\n"] :=
  c8_rset_clears_envelope (fun _ => none) "service.test" "RSET\r\n" "DATA\r\n"
    [] [".\r\n"] ⟨"a@x", ["b@service.test"], "buffered"⟩ gwNoFaults rfl rfl

/-- Claim C9, counterexample: with the service domain service.test, after
MAIL and an accepted RCPT, an EHLO followed immediately by DATA is answered
with the 354 input prompt — the transaction proceeds and even stores a
message — not with the 503 bad-sequence reply the claim demands, because
HELO and EHLO leave the envelope intact. -/
theorem c9_counterexample :
    (handle_connection (fun _ => some parsedHi) "service.test"
        ["MAIL FROM:<a@x>\r\n", "RCPT TO:<b@service.test>\r\n", "EHLO hi\r\n",
         "DATA\r\n", "Subject: x\r\n", ".\r\n"] gwNoFaults).output
      = [greeting "service.test", "250 OK\r\n", "250 OK\r\n"]
        ++ heloReplies "service.test"
        ++ ["354 Start mail input; end with <CRLF>.<CRLF>\r\n",
            "250 OK: Message accepted\r\n"] ∧
    ((handle_connection (fun _ => some parsedHi) "service.test"
        ["MAIL FROM:<a@x>\r\n", "RCPT TO:<b@service.test>\r\n", "EHLO hi\r\n",
         "DATA\r\n", "Subject: x\r\n", ".\r\n"] gwNoFaults).gw.db.messages.map
      Message.to_addr = ["b@service.test"]) := ⟨rfl, rfl⟩

/-- Claim C9, amended: HELO and EHLO reply with the capability lines but do
not change the session at all — in particular the envelope sender and the
accepted recipients survive, which is why a DATA issued right after an EHLO
in a session with a full envelope proceeds to body collection instead of
failing with bad sequence. -/
theorem c9_helo_keeps_envelope (parser : String → Option ParsedMessage)
    (domain line : String) (rest : List String) (s : Session) (g : Gw)
    (hcmd : parse_cmd line = "HELO" ∨ parse_cmd line = "EHLO") :
    conn_step parser domain line rest s g = .next s g (heloReplies domain) rest :=
  conn_step_helo parser domain line rest s g hcmd

/-- Witness for the amended C9 at a concrete EHLO in a full-envelope session. -/
theorem c9_helo_keeps_envelope_witness :
    conn_step (fun _ => none) "service.test" "EHLO client\r\n" []
        ⟨"a@x", ["b@service.test"], ""⟩ gwNoFaults
      = .next ⟨"a@x", ["b@service.test"], ""⟩ gwNoFaults
          (heloReplies "service.test") [] :=
  c9_helo_keeps_envelope (fun _ => none) "service.test" "EHLO client\r\n" []
    ⟨"a@x", ["b@service.test"], ""⟩ gwNoFaults (Or.inr rfl)

theorem process_email_msgsInv (g : Gw) (fa : String) (rs : List String)
    (raw domain : String) (parsed : Option ParsedMessage)
    (h : msgsInv g.db) (hfa : fa ≠ "") :
    msgsInv (process_email g fa rs raw domain parsed).1.db := by
  cases parsed with
  | none => exact h
  | some p =>
    obtain ⟨new, hnew, hfields⟩ :=
      process_recipients_messages fa (p.subject.getD "(No Subject)")
        (p.body_text.getD "(No text body)") p.body_html raw domain rs g
    intro m hm
    have hm' : m ∈ g.db.messages ++ new := by
      have he : (process_email g fa rs raw domain (some p)).1
          = (process_recipients g fa rs (p.subject.getD "(No Subject)")
              (p.body_text.getD "(No text body)") p.body_html raw domain).1 := rfl
      rw [he, hnew] at hm
      exact hm
    rcases List.mem_append.mp hm' with hmem | hmem
    · exact h m hmem
    · exact ⟨fa, (hfields m hmem).1, hfa⟩

theorem data_arm_msgsInv (parser : String → Option ParsedMessage)
    (domain : String) (rest : List String) (s : Session) (g : Gw)
    (h : msgsInv g.db) :
    msgsInv ((data_arm parser domain rest s g).gwOf).db := by
  unfold data_arm
  split
  · exact h
  · next hguard =>
    have hfa : s.mail_from ≠ "" := by
      intro hc
      exact hguard (by simp [hc])
    split
    · exact h
    · rename_i x buf rest1 hcoll
      split
      · rename_i y g1 hproc
        have hp := process_email_msgsInv g s.mail_from s.rcpt_to buf domain
          (parser buf) h hfa
        rw [hproc] at hp
        exact hp
      · rename_i y g1 e hproc
        have hp := process_email_msgsInv g s.mail_from s.rcpt_to buf domain
          (parser buf) h hfa
        rw [hproc] at hp
        exact hp

theorem conn_step_msgsInv (parser : String → Option ParsedMessage)
    (domain line : String) (rest : List String) (s : Session) (g : Gw)
    (h : msgsInv g.db) :
    msgsInv ((conn_step parser domain line rest s g).gwOf).db := by
  simp only [conn_step]
  repeat' split
  all_goals try exact h
  all_goals exact data_arm_msgsInv parser domain rest s g h

theorem conn_loop_msgsInv (parser : String → Option ParsedMessage) (domain : String) :
    ∀ (fuel : Nat) (input : List String) (s : Session) (g : Gw) (out : List String),
      msgsInv g.db → msgsInv (conn_loop parser domain fuel input s g out).gw.db := by
  intro fuel
  induction fuel with
  | zero => intro input s g out h; exact h
  | succ fuel ih =>
    intro input s g out h
    cases input with
    | nil => exact h
    | cons line rest =>
      have hstep := conn_step_msgsInv parser domain line rest s g h
      rcases hs : conn_step parser domain line rest s g with ⟨s1, g1, replies, rest1⟩ | ⟨g1, replies, e⟩
      · rw [hs] at hstep
        simpa [conn_loop, hs] using ih rest1 s1 g1 (out ++ replies) hstep
      · rw [hs] at hstep
        simpa [conn_loop, hs] using hstep

/-- Claim C10: every Message row the ingestion core creates has a present and
non-empty from_addr — the DATA gate refuses an empty sender with bad
sequence, and the pipeline stores the sender wrapped in some — so a store in
which every message has a present non-empty sender keeps that property
through any whole connection, whatever the peer sends. -/
theorem c10_sender_always_present (parser : String → Option ParsedMessage)
    (domain : String) (input : List String) (g : Gw) (h : msgsInv g.db) :
    msgsInv (handle_connection parser domain input g).gw.db :=
  conn_loop_msgsInv parser domain (input.length + 1) input Session.initial g
    [greeting domain] h

/-- Witness for C10 on a concrete full transaction from the empty store. -/
theorem c10_sender_always_present_witness :
    msgsInv (handle_connection (fun _ => some parsedHi) "service.test"
        ["EHLO c\r\n", "MAIL FROM:<a@x>\r\n", "RCPT TO:<bob@service.test>\r\n",
         "DATA\r\n", "Subject: Hi\r\n", "\r\n", "Hello\r\n", ".\r\n", "QUIT\r\n"]
        gwNoFaults).gw.db :=
  c10_sender_always_present (fun _ => some parsedHi) "service.test"
    ["EHLO c\r\n", "MAIL FROM:<a@x>\r\n", "RCPT TO:<bob@service.test>\r\n",
     "DATA\r\n", "Subject: Hi\r\n", "\r\n", "Hello\r\n", ".\r\n", "QUIT\r\n"]
    gwNoFaults (fun m hm => absurd hm (List.not_mem_nil m))

theorem findIdx?_of_not_pre (p : Char → Bool) :
    ∀ (pre : List Char) (c : Char) (rest : List Char),
      (∀ x ∈ pre, p x = false) → p c = true →
      (pre ++ c :: rest).findIdx? p = some pre.length := by
  intro pre
  induction pre with
  | nil => intro c rest h hc; simp [List.findIdx?_cons, hc]
  | cons a as ih =>
    intro c rest h hc
    have ha : p a = false := h a (by simp)
    have ihh := ih c rest (fun x hx => h x (by simp [hx])) hc
    simp [List.findIdx?_cons, ha, List.findIdx?_succ, ihh]

theorem mem_of_findIdx?_eq_some {cs : List Char} {c : Char} {k : Nat}
    (hk : cs.findIdx? (fun x => x == c) = some k) : c ∈ cs := by
  by_contra hc
  have hnone : cs.findIdx? (fun x => x == c) = none :=
    List.findIdx?_eq_none_iff.mpr (fun x hx => by
      simp only [beq_eq_false_iff_ne, ne_eq]
      intro he
      exact hc (he ▸ hx))
  rw [hnone] at hk
  cases hk

/-- Claim C5, amended: extract_email returns the substring strictly between
the first opening and the first closing bracket of the line, lowercased, when
the first opening bracket precedes the first closing one; it returns the
malformed outcome exactly when one of the brackets is absent; but on lines
whose first closing bracket precedes the first opening one it does neither —
the Rust slice panics. -/
theorem c5_extract_between_first_brackets (command : String) :
    (extract_email command = ExtractResult.malformed ↔
      ('<' ∉ command.toList ∨ '>' ∉ command.toList)) ∧
    (∀ pre mid post : List Char,
      command.toList = pre ++ '<' :: (mid ++ '>' :: post) →
      '<' ∉ pre → '>' ∉ pre ++ '<' :: mid →
      extract_email command = ExtractResult.ok (strLower (String.mk mid))) ∧
    (∀ pre mid post : List Char,
      command.toList = pre ++ '>' :: (mid ++ '<' :: post) →
      '>' ∉ pre → '<' ∉ pre ++ '>' :: mid →
      extract_email command = ExtractResult.panicked) := by
  refine ⟨?_, ?_, ?_⟩
  · rcases h1 : command.toList.findIdx? (fun c => c == '<') with _ | s
    · constructor
      · intro _
        left
        intro hmem
        have := List.findIdx?_eq_none_iff.mp h1 '<' hmem
        simp at this
      · intro _
        cases h2 : command.toList.findIdx? (fun c => c == '>') <;>
          simp only [extract_email, h1, h2]
    · rcases h2 : command.toList.findIdx? (fun c => c == '>') with _ | e
      · constructor
        · intro _
          right
          intro hmem
          have := List.findIdx?_eq_none_iff.mp h2 '>' hmem
          simp at this
        · intro _
          simp only [extract_email, h1, h2]
      · constructor
        · intro hm
          exfalso
          revert hm
          simp only [extract_email, h1, h2]
          split <;> simp
        · intro hm
          exfalso
          rcases hm with hm | hm
          · exact hm (mem_of_findIdx?_eq_some h1)
          · exact hm (mem_of_findIdx?_eq_some h2)
  · intro pre mid post hdec hpre hprelt
    have hlt : command.toList.findIdx? (fun c => c == '<') = some pre.length := by
      rw [hdec]
      exact findIdx?_of_not_pre _ pre '<' _
        (fun x hx => by
          simp only [beq_eq_false_iff_ne, ne_eq]
          intro he
          exact hpre (he ▸ hx)) (by simp)
    have hgt : command.toList.findIdx? (fun c => c == '>')
        = some (pre ++ '<' :: mid).length := by
      rw [hdec, show pre ++ '<' :: (mid ++ '>' :: post)
          = (pre ++ '<' :: mid) ++ '>' :: post from by simp]
      exact findIdx?_of_not_pre _ (pre ++ '<' :: mid) '>' post
        (fun x hx => by
          simp only [beq_eq_false_iff_ne, ne_eq]
          intro he
          exact hprelt (he ▸ hx)) (by simp)
    have hlen : (pre ++ '<' :: mid).length = pre.length + 1 + mid.length := by
      simp
      omega
    simp only [extract_email, hlt, hgt, hlen]
    rw [if_pos (by omega)]
    have hdrop : command.toList.drop (pre.length + 1) = mid ++ '>' :: post := by
      rw [hdec, show pre ++ '<' :: (mid ++ '>' :: post)
          = (pre ++ ['<']) ++ (mid ++ '>' :: post) from by simp]
      exact List.drop_left' (by simp)
    have htake : (pre.length + 1 + mid.length) - (pre.length + 1) = mid.length := by omega
    rw [hdrop, htake, List.take_left]
  · intro pre mid post hdec hpre hprelt
    have hgt : command.toList.findIdx? (fun c => c == '>') = some pre.length := by
      rw [hdec]
      exact findIdx?_of_not_pre _ pre '>' _
        (fun x hx => by
          simp only [beq_eq_false_iff_ne, ne_eq]
          intro he
          exact hpre (he ▸ hx)) (by simp)
    have hlt : command.toList.findIdx? (fun c => c == '<')
        = some (pre ++ '>' :: mid).length := by
      rw [hdec, show pre ++ '>' :: (mid ++ '<' :: post)
          = (pre ++ '>' :: mid) ++ '<' :: post from by simp]
      exact findIdx?_of_not_pre _ (pre ++ '>' :: mid) '<' post
        (fun x hx => by
          simp only [beq_eq_false_iff_ne, ne_eq]
          intro he
          exact hprelt (he ▸ hx)) (by simp)
    have hlen : (pre ++ '>' :: mid).length = pre.length + 1 + mid.length := by
      simp
      omega
    simp only [extract_email, hlt, hgt, hlen]
    rw [if_neg (by omega)]

/-- Witness for the amended C5 at the three kinds of concrete lines. -/
theorem c5_extract_between_first_brackets_witness :
    extract_email "MAIL FROM:<A@X>" = ExtractResult.ok (strLower (String.mk ['A', '@', 'X'])) ∧
    extract_email "MAIL FROM:a@x" = ExtractResult.malformed ∧
    extract_email ">a<" = ExtractResult.panicked := by
  refine ⟨?_, ?_, ?_⟩
  · exact (c5_extract_between_first_brackets "MAIL FROM:<A@X>").2.1
      ("MAIL FROM:".toList) ['A', '@', 'X'] [] (by decide) (by decide) (by decide)
  · exact (c5_extract_between_first_brackets "MAIL FROM:a@x").1.mpr
      (Or.inl (by decide))
  · exact (c5_extract_between_first_brackets ">a<").2.2
      [] ['a'] [] (by decide) (by decide) (by decide)

end TempMail
